import Mathlib

/-!
Shallow embedding of the gildas-ai face-extraction core (store.go and the
LocalCache of main.go), with theorems checking the natural-language
specification against it.  Go float32 values are modeled as rationals;
Go machine ints as unbounded Int (no arithmetic here approaches overflow);
images are modeled by their bounds, since no verified property depends on
pixel values.
-/

namespace GildasAI

/-- Integer 2-D point, after Go's image.Point. -/
structure Point where
  X : Int
  Y : Int
  deriving DecidableEq, Repr

/-- Axis-aligned rectangle, after Go's image.Rectangle. -/
structure Rectangle where
  Min : Point
  Max : Point
  deriving DecidableEq, Repr

/-- Width, after Go's image.Rectangle.Dx: Max.X - Min.X. -/
def Rectangle.Dx (r : Rectangle) : Int := r.Max.X - r.Min.X

/-- Height, after Go's image.Rectangle.Dy: Max.Y - Min.Y. -/
def Rectangle.Dy (r : Rectangle) : Int := r.Max.Y - r.Min.Y

/-- The rectangle r lies entirely within bounds b (edge containment on
both axes). -/
def Rectangle.Within (r b : Rectangle) : Prop :=
  b.Min.X ≤ r.Min.X ∧ b.Min.Y ≤ r.Min.Y ∧ r.Max.X ≤ b.Max.X ∧ r.Max.Y ≤ b.Max.Y

instance (r b : Rectangle) : Decidable (r.Within b) := by
  unfold Rectangle.Within
  infer_instance

/-- An image is modeled by its bounds only: Go's image.Image also carries
pixel data, but none of the verified claims depends on pixel values. -/
structure Image where
  Bounds : Rectangle
  deriving DecidableEq, Repr

/-- image.NewRGBA(r) followed by draw.Draw from a source image: a fresh
image whose bounds are exactly r (the copied pixel content is abstracted
away, see Image). -/
def cropFrom (r : Rectangle) : Image := ⟨r⟩

/-- After Landmarks in store.go: a flat list of normalized coordinates,
float32 modeled as ℚ. -/
structure Landmarks where
  Coords : List ℚ
  deriving DecidableEq, Repr

/-- Go's int(f) conversion of a float value: truncation toward zero. -/
def intTrunc (q : ℚ) : Int := Int.tdiv q.num q.den

/-- The consecutive disjoint pairs (Coords[i], Coords[i+1]) for
i = 0, 2, 4, ..., mirroring the loop bound i < len(Coords)-1 in
Landmarks.PointsOnImage: a trailing unpaired coordinate of an odd-length
slice is dropped. -/
def coordPairs : List ℚ → List (ℚ × ℚ)
  | x :: y :: rest => (x, y) :: coordPairs rest
  | _ => []

/-- After Landmarks.PointsOnImage in store.go: each coordinate pair (x, y)
is mapped to the image's Min corner offset by the truncated products
int(w*x), int(h*y). -/
def Landmarks.PointsOnImage (l : Landmarks) (img : Image) : List Point :=
  let w : ℚ := (img.Bounds.Dx : ℚ)
  let h : ℚ := (img.Bounds.Dy : ℚ)
  let minX := img.Bounds.Min.X
  let minY := img.Bounds.Min.Y
  (coordPairs l.Coords).map
    (fun p => ⟨minX + intTrunc (w * p.1), minY + intTrunc (h * p.2)⟩)

/-- The landmark bounding box as computed inside Landmarks.Center: the
min/max accumulators start from the INVERTED full-image bounds
(minX := bounds.Max.X, maxX := bounds.Min.X, and likewise for Y) and are
updated by the successive comparison ifs of the source loop. -/
def boundingRect (points : List Point) (bounds : Rectangle) : Rectangle :=
  let acc := points.foldl
    (fun (a : Int × Int × Int × Int) (p : Point) =>
      let mnX := if p.X < a.1 then p.X else a.1
      let mnY := if p.Y < a.2.1 then p.Y else a.2.1
      let mxX := if p.X > a.2.2.1 then p.X else a.2.2.1
      let mxY := if p.Y > a.2.2.2 then p.Y else a.2.2.2
      (mnX, mnY, mxX, mxY))
    (bounds.Max.X, bounds.Max.Y, bounds.Min.X, bounds.Min.Y)
  ⟨⟨acc.1, acc.2.1⟩, ⟨acc.2.2.1, acc.2.2.2⟩⟩

/-- After square in store.go: expand the shorter side symmetrically, extra
pixel on the trailing edge.  The Go expression (height-width)/2 divides a
positive int, for which Go's truncated division agrees with the Euclidean
division written here. -/
def square (rect : Rectangle) : Rectangle :=
  let width := rect.Max.X - rect.Min.X
  let height := rect.Max.Y - rect.Min.Y
  if height > width then
    let left := (height - width) / 2
    let right := height - width - left
    ⟨⟨rect.Min.X - left, rect.Min.Y⟩, ⟨rect.Max.X + right, rect.Max.Y⟩⟩
  else if width > height then
    let top := (width - height) / 2
    let bottom := width - height - top
    ⟨⟨rect.Min.X, rect.Min.Y - top⟩, ⟨rect.Max.X, rect.Max.Y + bottom⟩⟩
  else
    rect

/-- After insideOf in store.go: four successive clamps, each translating one
edge onto the corresponding bound and dragging the opposite edge by the same
overflow amount. -/
def insideOf (rect bounds : Rectangle) : Rectangle :=
  let r1 := if bounds.Min.X > rect.Min.X then
      ⟨⟨bounds.Min.X, rect.Min.Y⟩,
       ⟨rect.Max.X + (bounds.Min.X - rect.Min.X), rect.Max.Y⟩⟩
    else rect
  let r2 := if bounds.Min.Y > r1.Min.Y then
      ⟨⟨r1.Min.X, bounds.Min.Y⟩,
       ⟨r1.Max.X, r1.Max.Y + (bounds.Min.Y - r1.Min.Y)⟩⟩
    else r1
  let r3 := if r2.Max.X > bounds.Max.X then
      ⟨⟨r2.Min.X - (r2.Max.X - bounds.Max.X), r2.Min.Y⟩,
       ⟨bounds.Max.X, r2.Max.Y⟩⟩
    else r2
  let r4 := if r3.Max.Y > bounds.Max.Y then
      ⟨⟨r3.Min.X, r3.Min.Y - (r3.Max.Y - bounds.Max.Y)⟩,
       ⟨r3.Max.X, bounds.Max.Y⟩⟩
    else r3
  r4

/-- The rectangle computed by Landmarks.Center before the final pixel copy:
insideOf(square(bounding box of the landmark points), full bounds). -/
def centerRect (points : List Point) (bounds : Rectangle) : Rectangle :=
  insideOf (square (boundingRect points bounds)) bounds

/-- After Landmarks.Center in store.go: resolve the landmark points against
the cropped image, take their bounding box, square it, clamp it inside the
full image's bounds, and return a fresh image over that rectangle. -/
def Landmarks.Center (l : Landmarks) (cropped full : Image) : Image :=
  ⟨centerRect (l.PointsOnImage cropped) full.Bounds⟩

/-- After Detection in store.go; Score and Class are float32 in the source,
modeled as ℚ. -/
structure Detection where
  Box : Rectangle
  Score : ℚ
  Class : ℚ
  deriving DecidableEq, Repr

/-- After Above in store.go: keep, in order, the detections whose score is
not below the threshold. -/
def Above : List Detection → ℚ → List Detection
  | [], _ => []
  | d :: rest, threshold =>
    if d.Score < threshold then Above rest threshold
    else d :: Above rest threshold

/-- After Descriptors in store.go: a vector of float32, modeled as ℚ. -/
abbrev Descriptors := List ℚ

/-- The running sum of squared componentwise differences accumulated by the
loop of Descriptors.DistanceTo. -/
def sumSqDiff (d d2 : Descriptors) : ℚ :=
  (List.zipWith (fun x y => (x - y) * (x - y)) d d2).foldl (fun s t => s + t) 0

/-- The dimension-mismatch message produced by Descriptors.DistanceTo. -/
def mismatchMsg (n m : Nat) : String :=
  "cannot calculate distance between descriptors of dimensions " ++
    toString n ++ " and " ++ toString m

/-- After Descriptors.DistanceTo in store.go: error out on unequal lengths,
otherwise the square root of the sum of squared differences.  math.Sqrt is
modeled as Real.sqrt. -/
noncomputable def DistanceTo (d d2 : Descriptors) : Except String ℝ :=
  if d.length ≠ d2.length then
    .error (mismatchMsg d.length d2.length)
  else
    .ok (Real.sqrt ((sumSqDiff d d2 : ℚ) : ℝ))

/-- The errors Extractor methods can return, one constructor per wrap site
in store.go (each carries the underlying collaborator error), plus the
"no face detected" error of ExtractLandmarks. -/
inductive ExtractError where
  | detection (underlying : String)
  | landmark (underlying : String)
  | descriptor (underlying : String)
  | noFaceDetected
  deriving DecidableEq, Repr

/-- True exactly on the landmark-stage and descriptor-stage error kinds. -/
def isStageError : ExtractError → Bool
  | .landmark _ => true
  | .descriptor _ => true
  | _ => false

/-- After Extractor in store.go: the Detector, Landmark and Descriptor
interfaces are modeled as fallible functions. -/
structure Extractor where
  Detector : Image → Except String (List Detection)
  Landmark : Image → Except String Landmarks
  Descriptor : Image → Except String Descriptors

/-- The per-detection loop of Extractor.Extract: skip boxes under 45 px in
either dimension, crop, detect landmarks, recrop via Landmarks.Center,
compute a descriptor, and abort the whole call on the first stage error. -/
def extractLoop (e : Extractor) (img : Image) :
    List Detection → Except ExtractError (List Image × List Descriptors)
  | [] => .ok ([], [])
  | d :: rest =>
    if d.Box.Dx < 45 ∨ d.Box.Dy < 45 then
      extractLoop e img rest
    else
      match e.Landmark (cropFrom d.Box) with
      | .error err => .error (.landmark err)
      | .ok lms =>
        match e.Descriptor (lms.Center (cropFrom d.Box) img) with
        | .error err => .error (.descriptor err)
        | .ok descriptors =>
          match extractLoop e img rest with
          | .error err => .error err
          | .ok (images, descrs) =>
            .ok (lms.Center (cropFrom d.Box) img :: images, descriptors :: descrs)

/-- After Extractor.Extract in store.go: detect, filter by score ≥ 0.6
(written mkRat 3 5), then run the per-detection loop. -/
def Extractor.Extract (e : Extractor) (img : Image) :
    Except ExtractError (List Image × List Descriptors) :=
  match e.Detector img with
  | .error err => .error (.detection err)
  | .ok allDetections => extractLoop e img (Above allDetections (mkRat 3 5))

/-- The per-detection loop of Extractor.ExtractLandmarks: same size skip and
landmark stage, but no Center recrop and no descriptor stage; collects the
landmark points resolved on the crop together with the crop itself. -/
def extractLandmarksLoop (e : Extractor) :
    List Detection → Except ExtractError (List (List Point) × List Image)
  | [] => .ok ([], [])
  | d :: rest =>
    if d.Box.Dx < 45 ∨ d.Box.Dy < 45 then
      extractLandmarksLoop e rest
    else
      match e.Landmark (cropFrom d.Box) with
      | .error err => .error (.landmark err)
      | .ok lms =>
        match extractLandmarksLoop e rest with
        | .error err => .error err
        | .ok (ret, crops) =>
          .ok (lms.PointsOnImage (cropFrom d.Box) :: ret, cropFrom d.Box :: crops)

/-- After Extractor.ExtractLandmarks in store.go: detect, filter by score ≥
0.4 (written mkRat 2 5), fail with noFaceDetected when nothing survives,
otherwise run the landmark-only loop. -/
def Extractor.ExtractLandmarks (e : Extractor) (img : Image) :
    Except ExtractError (List (List Point) × List Image) :=
  match e.Detector img with
  | .error err => .error (.detection err)
  | .ok allDetections =>
    let detections := Above allDetections (mkRat 2 5)
    if detections.isEmpty then .error .noFaceDetected
    else extractLandmarksLoop e detections

/-- The failing-stage test for one surviving detection inside
Extractor.Extract: the landmark stage fails on the crop of its box, or the
landmark stage succeeds and the descriptor stage fails on the Center
recrop. -/
def stageFails (e : Extractor) (img : Image) (d : Detection) : Bool :=
  match e.Landmark (cropFrom d.Box) with
  | .error _ => true
  | .ok lms =>
    match e.Descriptor (lms.Center (cropFrom d.Box) img) with
    | .error _ => true
    | .ok _ => false

/-- The cache's persistent contents, abstracting the cache directory of
main.go: an association list from cache-file name to the stored prediction
list.  readCache and saveCache below act on it. -/
abbrev CacheState := List (String × List String)

/-- Stand-in for fmt.Sprintf of sha1.Sum over the file name in cacheName
(main.go).  Every verified cache property depends only on the key being a
deterministic function of the input string, so the SHA-1 digest itself is
abstracted to the identity on the input. -/
def sha1Hex (s : String) : String := s

/-- After cacheName in main.go: cacheDir/hex-digest.json. -/
def cacheName (cacheDir file : String) : String :=
  cacheDir ++ "/" ++ sha1Hex file ++ ".json"

/-- After readCache in main.go: a readable, well-formed cache file yields its
stored predictions; a missing or unparseable file is a miss (modeled as an
absent key). -/
def readCache (st : CacheState) (cacheFile : String) : Option (List String) :=
  st.lookup cacheFile

/-- After saveCache in main.go, on the success path: persist the predictions
under the cache-file name (I/O and the mkdir-and-retry fallback are modeled
as a reliable write). -/
def saveCache (st : CacheState) (cacheFile : String) (preds : List String) :
    CacheState :=
  (cacheFile, preds) :: st

/-- After LocalCache in main.go. -/
structure LocalCache where
  CacheDir : String

/-- After LocalCache.Inception in main.go, with the cache directory contents
passed as explicit state.  The computation is modeled by its result, and the
returned Nat counts how many times it was invoked during this call (0 on a
hit, 1 on a miss). -/
def LocalCache.Inception (l : LocalCache) (st : CacheState) (file : String)
    (inception : Except String (List String)) :
    Except String (List String) × CacheState × Nat :=
  let cacheFile := cacheName l.CacheDir file
  match readCache st cacheFile with
  | some preds => (.ok preds, st, 0)
  | none =>
    match inception with
    | .error e => (.error e, st, 1)
    | .ok preds => (.ok preds, saveCache st cacheFile preds, 1)

/-! ## Helper lemmas -/

theorem insideOf_Dx (rect bounds : Rectangle) : (insideOf rect bounds).Dx = rect.Dx := by
  simp only [insideOf, Rectangle.Dx]
  repeat' split
  all_goals try simp
  all_goals omega

theorem insideOf_Dy (rect bounds : Rectangle) : (insideOf rect bounds).Dy = rect.Dy := by
  simp only [insideOf, Rectangle.Dy]
  repeat' split
  all_goals try simp
  all_goals omega

theorem square_Dx (rect : Rectangle) : (square rect).Dx = max rect.Dx rect.Dy := by
  simp only [square, Rectangle.Dx, Rectangle.Dy]
  repeat' split
  all_goals try simp
  all_goals omega

theorem square_Dy (rect : Rectangle) : (square rect).Dy = max rect.Dx rect.Dy := by
  simp only [square, Rectangle.Dx, Rectangle.Dy]
  repeat' split
  all_goals try simp
  all_goals omega

theorem insideOf_within (rect bounds : Rectangle) (hx : rect.Dx ≤ bounds.Dx)
    (hy : rect.Dy ≤ bounds.Dy) : (insideOf rect bounds).Within bounds := by
  simp only [insideOf, Rectangle.Dx, Rectangle.Dy, Rectangle.Within] at *
  repeat' split
  all_goals try simp_all
  all_goals omega

/-! ## Claim C1 -/

/-- Claim C1 (counterexample): a landmark point set whose bounding box lies
within the full bounds, yet the rectangle produced by
insideOf(square(bbox), fullBounds) is NOT contained in the full bounds: the
bounds are 100 wide but only 10 tall, the squared box has side 50, and the
clamp pushes its top edge to Y = -40. -/
theorem centerRect_escapes_counterexample :
    (boundingRect [⟨0, 0⟩, ⟨50, 5⟩] ⟨⟨0, 0⟩, ⟨100, 10⟩⟩).Within ⟨⟨0, 0⟩, ⟨100, 10⟩⟩ ∧
    centerRect [⟨0, 0⟩, ⟨50, 5⟩] ⟨⟨0, 0⟩, ⟨100, 10⟩⟩ = ⟨⟨0, -40⟩, ⟨50, 10⟩⟩ ∧
    ¬ (centerRect [⟨0, 0⟩, ⟨50, 5⟩] ⟨⟨0, 0⟩, ⟨100, 10⟩⟩).Within ⟨⟨0, 0⟩, ⟨100, 10⟩⟩ := by
  decide

/-- Claim C1 (amended): for every landmark point set whose bounding box lies
within the full bounds AND whose larger bounding-box dimension is at most
both dimensions of the full bounds, the rectangle produced by
insideOf(square(bbox), fullBounds), as used by Landmarks.Center, is square
and fully contained in the full bounds. -/
theorem centerRect_square_and_within (points : List Point) (bounds : Rectangle)
    (hin : (boundingRect points bounds).Within bounds)
    (hfit : max (boundingRect points bounds).Dx (boundingRect points bounds).Dy ≤
      min bounds.Dx bounds.Dy) :
    (centerRect points bounds).Dx = (centerRect points bounds).Dy ∧
    (centerRect points bounds).Within bounds := by
  constructor
  · rw [centerRect, insideOf_Dx, insideOf_Dy, square_Dx, square_Dy]
  · refine insideOf_within _ _ ?_ ?_
    · rw [square_Dx]
      exact le_trans hfit (min_le_left _ _)
    · rw [square_Dy]
      exact le_trans hfit (min_le_right _ _)

/-- Witness for centerRect_square_and_within at a concrete input. -/
theorem centerRect_square_and_within_witness :
    ((boundingRect [⟨0, 0⟩, ⟨10, 10⟩] ⟨⟨0, 0⟩, ⟨100, 100⟩⟩).Within ⟨⟨0, 0⟩, ⟨100, 100⟩⟩ ∧
      max (boundingRect [⟨0, 0⟩, ⟨10, 10⟩] ⟨⟨0, 0⟩, ⟨100, 100⟩⟩).Dx
          (boundingRect [⟨0, 0⟩, ⟨10, 10⟩] ⟨⟨0, 0⟩, ⟨100, 100⟩⟩).Dy ≤
        min (⟨⟨0, 0⟩, ⟨100, 100⟩⟩ : Rectangle).Dx (⟨⟨0, 0⟩, ⟨100, 100⟩⟩ : Rectangle).Dy) ∧
    (centerRect [⟨0, 0⟩, ⟨10, 10⟩] ⟨⟨0, 0⟩, ⟨100, 100⟩⟩).Dx =
        (centerRect [⟨0, 0⟩, ⟨10, 10⟩] ⟨⟨0, 0⟩, ⟨100, 100⟩⟩).Dy ∧
      (centerRect [⟨0, 0⟩, ⟨10, 10⟩] ⟨⟨0, 0⟩, ⟨100, 100⟩⟩).Within ⟨⟨0, 0⟩, ⟨100, 100⟩⟩ :=
  ⟨⟨by decide, by decide⟩,
    centerRect_square_and_within [⟨0, 0⟩, ⟨10, 10⟩] ⟨⟨0, 0⟩, ⟨100, 100⟩⟩
      (by decide) (by decide)⟩

/-! ## Claim C10 -/

/-- Claim C10: insideOf returns a rectangle with exactly the width and the
height of its input — it only translates edges, never shrinks — so the crop
rectangle computed by Landmarks.Center always has side length equal to the
larger dimension of the landmark bounding box, even when that square cannot
fit inside the full image bounds. -/
theorem insideOf_preserves_size (rect bounds : Rectangle) (points : List Point) :
    (insideOf rect bounds).Dx = rect.Dx ∧ (insideOf rect bounds).Dy = rect.Dy ∧
    (centerRect points bounds).Dx =
      max (boundingRect points bounds).Dx (boundingRect points bounds).Dy ∧
    (centerRect points bounds).Dy =
      max (boundingRect points bounds).Dx (boundingRect points bounds).Dy := by
  refine ⟨insideOf_Dx rect bounds, insideOf_Dy rect bounds, ?_, ?_⟩
  · rw [centerRect, insideOf_Dx, square_Dx]
  · rw [centerRect, insideOf_Dy, square_Dy]


/-! ## Claims C5 and C6 -/

theorem sumSqDiff_comm (a b : Descriptors) : sumSqDiff a b = sumSqDiff b a := by
  unfold sumSqDiff
  congr 1
  exact List.zipWith_comm_of_comm (fun x y => (x - y) * (x - y)) (by intro x y; ring) a b

theorem sumSqDiff_self (a : Descriptors) : sumSqDiff a a = 0 := by
  unfold sumSqDiff
  rw [List.zipWith_same]
  induction a with
  | nil => rfl
  | cons x rest ih => simpa using ih

/-- Claim C5: for equal-length descriptor vectors, DistanceTo succeeds and
returns the plain Euclidean distance (square root of the sum of squared
componentwise differences, no normalization or weighting); it is symmetric,
zero on identical vectors, and exactly 5 on [0,0,0] vs [3,4,0]. -/
theorem distanceTo_euclidean (a b : Descriptors) (h : a.length = b.length) :
    DistanceTo a b = .ok (Real.sqrt ((sumSqDiff a b : ℚ) : ℝ)) ∧
    DistanceTo a b = DistanceTo b a ∧
    DistanceTo a a = .ok 0 ∧
    DistanceTo [0, 0, 0] [3, 4, 0] = .ok 5 := by
  refine ⟨?_, ?_, ?_, ?_⟩
  · simp [DistanceTo, h]
  · simp [DistanceTo, h, sumSqDiff_comm]
  · simp [DistanceTo, sumSqDiff_self]
  · have hs : sumSqDiff [0, 0, 0] [3, 4, 0] = 25 := by
      norm_num [sumSqDiff, List.zipWith, List.foldl]
    simp only [DistanceTo]
    rw [if_neg (by decide), hs]
    norm_num
    rw [show (25 : ℝ) = (5 : ℝ) ^ 2 by norm_num]
    exact Real.sqrt_sq (by norm_num)

/-- Witness for distanceTo_euclidean at the spec's concrete scenario. -/
theorem distanceTo_euclidean_witness :
    ([0, 0, 0] : Descriptors).length = ([3, 4, 0] : Descriptors).length ∧
    DistanceTo [0, 0, 0] [3, 4, 0] = .ok 5 :=
  ⟨by decide, (distanceTo_euclidean [0, 0, 0] [3, 4, 0] (by decide)).2.2.2⟩

/-- Claim C6: on descriptor vectors of unequal lengths, DistanceTo returns
the dimension-mismatch error (the total Lean function neither panics nor
truncates nor pads), and it fails if and only if the lengths differ. -/
theorem distanceTo_mismatch (a b : Descriptors) (h : a.length ≠ b.length) :
    DistanceTo a b = .error (mismatchMsg a.length b.length) ∧
    ∀ c d : Descriptors, (∃ e, DistanceTo c d = .error e) ↔ c.length ≠ d.length := by
  constructor
  · simp [DistanceTo, h]
  · intro c d
    by_cases hl : c.length = d.length
    · simp [DistanceTo, hl]
    · simp [DistanceTo, hl]

/-- Witness for distanceTo_mismatch at a concrete unequal-length pair. -/
theorem distanceTo_mismatch_witness :
    ([0] : Descriptors).length ≠ ([] : Descriptors).length ∧
    DistanceTo [0] [] =
      .error (mismatchMsg ([0] : Descriptors).length ([] : Descriptors).length) :=
  ⟨by decide, (distanceTo_mismatch [0] [] (by decide)).1⟩


/-! ## Concrete instances used by witnesses and counterexamples -/

/-- An extractor whose landmark stage always fails. -/
def eC2 : Extractor :=
  { Detector := fun _ => .ok [⟨⟨⟨0, 0⟩, ⟨50, 50⟩⟩, 1, 0⟩]
    Landmark := fun _ => .error "landmark model failed"
    Descriptor := fun _ => .ok [] }

/-- An extractor whose landmark stage puts every landmark at the crop
center, so the normalized crop degenerates to a single point. -/
def eC3 : Extractor :=
  { Detector := fun _ => .ok [⟨⟨⟨0, 0⟩, ⟨100, 100⟩⟩, 1, 0⟩]
    Landmark := fun _ => .ok ⟨[mkRat 1 2, mkRat 1 2]⟩
    Descriptor := fun _ => .ok [] }

/-- A 100 x 100 full image anchored at the origin. -/
def imgC3 : Image := ⟨⟨⟨0, 0⟩, ⟨100, 100⟩⟩⟩

/-- An extractor with total (never failing) landmark and descriptor stages
and an empty landmark coordinate list. -/
def eW3 : Extractor :=
  { Detector := fun _ => .ok [⟨⟨⟨0, 0⟩, ⟨50, 50⟩⟩, 1, 0⟩]
    Landmark := fun _ => .ok ⟨[]⟩
    Descriptor := fun _ => .ok [] }

/-- An extractor whose single detection scores 0.2, below both stage
thresholds. -/
def eC7 : Extractor :=
  { Detector := fun _ => .ok [⟨⟨⟨0, 0⟩, ⟨50, 50⟩⟩, mkRat 1 5, 0⟩]
    Landmark := fun _ => .error "unused"
    Descriptor := fun _ => .error "unused" }


/-! ## Claim C2 -/

theorem extractLoop_error_of_stageFails (e : Extractor) (img : Image) :
    ∀ l : List Detection,
      (∃ d ∈ l, (45 ≤ d.Box.Dx ∧ 45 ≤ d.Box.Dy) ∧ stageFails e img d = true) →
      ∃ err, extractLoop e img l = .error err ∧ isStageError err = true := by
  intro l
  induction l with
  | nil => simp
  | cons d rest ih =>
    intro h
    by_cases hsize : d.Box.Dx < 45 ∨ d.Box.Dy < 45
    · rw [extractLoop, if_pos hsize]
      apply ih
      obtain ⟨d2, hmem, hbig, hfail⟩ := h
      rcases List.mem_cons.mp hmem with heq | hmem2
      · subst heq
        exact absurd hsize (by omega)
      · exact ⟨d2, hmem2, hbig, hfail⟩
    · rw [extractLoop, if_neg hsize]
      cases hL : e.Landmark (cropFrom d.Box) with
      | error err => exact ⟨.landmark err, by simp [hL], rfl⟩
      | ok lms =>
        cases hD : e.Descriptor (lms.Center (cropFrom d.Box) img) with
        | error err => exact ⟨.descriptor err, by simp [hL, hD], rfl⟩
        | ok descrs =>
          have hrest : ∃ d2 ∈ rest, (45 ≤ d2.Box.Dx ∧ 45 ≤ d2.Box.Dy) ∧
              stageFails e img d2 = true := by
            obtain ⟨d2, hmem, hbig, hfail⟩ := h
            rcases List.mem_cons.mp hmem with heq | hmem2
            · subst heq
              simp [stageFails, hL, hD] at hfail
            · exact ⟨d2, hmem2, hbig, hfail⟩
          obtain ⟨err, herr, hstage⟩ := ih hrest
          refine ⟨err, ?_, hstage⟩
          simp [hL, hD, herr]

/-- Claim C2: if the landmark or descriptor stage fails for any surviving
detection (score at least 0.6, box at least 45 px in both dimensions),
Extractor.Extract returns a landmark-kind or descriptor-kind error wrapping
the stage failure — the kinds are distinguishable constructors — and no
partial result list is returned. -/
theorem extract_aborts_on_stage_failure (e : Extractor) (img : Image)
    (ds : List Detection)
    (h1 : e.Detector img = .ok ds)
    (h2 : ∃ d ∈ Above ds (mkRat 3 5), (45 ≤ d.Box.Dx ∧ 45 ≤ d.Box.Dy) ∧
      stageFails e img d = true) :
    (∃ err, e.Extract img = .error err ∧ isStageError err = true) ∧
    ∀ res, e.Extract img ≠ .ok res := by
  have hmain : ∃ err, e.Extract img = .error err ∧ isStageError err = true := by
    rw [Extractor.Extract, h1]
    exact extractLoop_error_of_stageFails e img _ h2
  refine ⟨hmain, ?_⟩
  intro res hc
  obtain ⟨err, herr, _⟩ := hmain
  rw [herr] at hc
  cases hc

/-- Witness for extract_aborts_on_stage_failure. -/
theorem extract_aborts_on_stage_failure_witness :
    (eC2.Detector ⟨⟨⟨0, 0⟩, ⟨100, 100⟩⟩⟩ = .ok [⟨⟨⟨0, 0⟩, ⟨50, 50⟩⟩, 1, 0⟩] ∧
      ∃ d ∈ Above [⟨⟨⟨0, 0⟩, ⟨50, 50⟩⟩, 1, 0⟩] (mkRat 3 5),
        (45 ≤ d.Box.Dx ∧ 45 ≤ d.Box.Dy) ∧
          stageFails eC2 ⟨⟨⟨0, 0⟩, ⟨100, 100⟩⟩⟩ d = true) ∧
    (∃ err, eC2.Extract ⟨⟨⟨0, 0⟩, ⟨100, 100⟩⟩⟩ = .error err ∧ isStageError err = true) ∧
    ∀ res, eC2.Extract ⟨⟨⟨0, 0⟩, ⟨100, 100⟩⟩⟩ ≠ .ok res :=
  ⟨⟨rfl, by decide⟩,
    extract_aborts_on_stage_failure eC2 ⟨⟨⟨0, 0⟩, ⟨100, 100⟩⟩⟩ _ rfl (by decide)⟩

/-! ## Claim C3 -/

theorem intTrunc_intCast (n : ℤ) : intTrunc (n : ℚ) = n := by
  simp [intTrunc]

/-- Claim C3 (counterexample): an extractor whose detection box is
100 x 100 (so it survives the 45 px filter) but whose landmarks all sit at
the crop center produces a returned crop of width and height 0 — the claim
that every returned crop is at least 45 x 45 is false. -/
theorem extract_small_crop_counterexample :
    eC3.Extract imgC3 = .ok ([⟨⟨⟨50, 50⟩, ⟨50, 50⟩⟩⟩], [[]]) ∧
    (Image.mk ⟨⟨50, 50⟩, ⟨50, 50⟩⟩).Bounds.Dx < 45 ∧
    (Image.mk ⟨⟨50, 50⟩, ⟨50, 50⟩⟩).Bounds.Dy < 45 := by
  refine ⟨?_, by decide, by decide⟩
  have hpts : (Landmarks.mk [mkRat 1 2, mkRat 1 2]).PointsOnImage
      (cropFrom ⟨⟨0, 0⟩, ⟨100, 100⟩⟩) = [⟨50, 50⟩] := by
    simp [Landmarks.PointsOnImage, coordPairs, cropFrom, Rectangle.Dx, Rectangle.Dy]
    rw [show (100 : ℚ) * mkRat 1 2 = ((50 : ℤ) : ℚ) by norm_num [Rat.mkRat_eq_div]]
    rw [intTrunc_intCast]
  have hcenter : (Landmarks.mk [mkRat 1 2, mkRat 1 2]).Center
      (cropFrom ⟨⟨0, 0⟩, ⟨100, 100⟩⟩) imgC3 = ⟨⟨⟨50, 50⟩, ⟨50, 50⟩⟩⟩ := by
    rw [Landmarks.Center, hpts]
    decide
  have hstep : eC3.Extract imgC3 = .ok
      ([(Landmarks.mk [mkRat 1 2, mkRat 1 2]).Center (cropFrom ⟨⟨0, 0⟩, ⟨100, 100⟩⟩) imgC3],
        [[]]) := rfl
  rw [hstep, hcenter]

theorem extractLoop_ok_images (e : Extractor) (img : Image) :
    ∀ (l : List Detection) (imgs : List Image) (descs : List Descriptors),
      extractLoop e img l = .ok (imgs, descs) →
      ∀ i ∈ imgs, ∃ d ∈ l, (45 ≤ d.Box.Dx ∧ 45 ≤ d.Box.Dy) ∧
        ∃ lms, e.Landmark (cropFrom d.Box) = .ok lms ∧
          i = lms.Center (cropFrom d.Box) img := by
  intro l
  induction l with
  | nil =>
    intro imgs descs h i hi
    simp only [extractLoop, Except.ok.injEq, Prod.mk.injEq] at h
    rw [← h.1] at hi
    simp at hi
  | cons d rest ih =>
    intro imgs descs h i hi
    by_cases hsize : d.Box.Dx < 45 ∨ d.Box.Dy < 45
    · rw [extractLoop, if_pos hsize] at h
      obtain ⟨d2, hmem, hbig, lms, hlms, hcen⟩ := ih imgs descs h i hi
      exact ⟨d2, List.mem_cons_of_mem _ hmem, hbig, lms, hlms, hcen⟩
    · rw [extractLoop, if_neg hsize] at h
      cases hLm : e.Landmark (cropFrom d.Box) with
      | error err => rw [hLm] at h; simp at h
      | ok lms =>
        rw [hLm] at h
        simp only at h
        cases hDs : e.Descriptor (lms.Center (cropFrom d.Box) img) with
        | error err => rw [hDs] at h; simp at h
        | ok descriptors =>
          rw [hDs] at h
          simp only at h
          cases hLoop : extractLoop e img rest with
          | error err => rw [hLoop] at h; simp at h
          | ok pair =>
            rw [hLoop] at h
            obtain ⟨images, descrs⟩ := pair
            simp only [Except.ok.injEq, Prod.mk.injEq] at h
            rw [← h.1] at hi
            rcases List.mem_cons.mp hi with heq | hmem2
            · exact ⟨d, List.mem_cons_self d rest, by omega, lms, hLm, heq⟩
            · obtain ⟨d2, hmem, hbig, lms2, hlms2, hcen2⟩ :=
                ih images descrs (by rw [hLoop]) i hmem2
              exact ⟨d2, List.mem_cons_of_mem _ hmem, hbig, lms2, hlms2, hcen2⟩

/-- Claim C3 (amended): detections whose box has width or height below
45 px are skipped before any landmark or descriptor work, but the returned
crops are the GeometryNormalizer outputs for the surviving detections —
their side equals the larger dimension of the landmark bounding box and can
be smaller than 45 px (see extract_small_crop_counterexample). -/
theorem extract_skips_small_boxes (e : Extractor) (img : Image) (ds : List Detection)
    (imgs : List Image) (descs : List Descriptors)
    (h1 : e.Detector img = .ok ds)
    (h2 : e.Extract img = .ok (imgs, descs)) :
    (∀ (d : Detection) (rest : List Detection), (d.Box.Dx < 45 ∨ d.Box.Dy < 45) →
      extractLoop e img (d :: rest) = extractLoop e img rest) ∧
    ∀ i ∈ imgs, ∃ d ∈ Above ds (mkRat 3 5), (45 ≤ d.Box.Dx ∧ 45 ≤ d.Box.Dy) ∧
      ∃ lms, e.Landmark (cropFrom d.Box) = .ok lms ∧
        i = lms.Center (cropFrom d.Box) img := by
  constructor
  · intro d rest hsmall
    rw [extractLoop, if_pos hsmall]
  · simp only [Extractor.Extract, h1] at h2
    exact extractLoop_ok_images e img _ imgs descs h2

/-- Witness for extract_skips_small_boxes. -/
theorem extract_skips_small_boxes_witness :
    (eW3.Detector ⟨⟨⟨0, 0⟩, ⟨100, 100⟩⟩⟩ = .ok [⟨⟨⟨0, 0⟩, ⟨50, 50⟩⟩, 1, 0⟩] ∧
      eW3.Extract ⟨⟨⟨0, 0⟩, ⟨100, 100⟩⟩⟩ = .ok ([⟨⟨⟨100, 100⟩, ⟨0, 0⟩⟩⟩], [[]])) ∧
    (∀ (d : Detection) (rest : List Detection), (d.Box.Dx < 45 ∨ d.Box.Dy < 45) →
      extractLoop eW3 ⟨⟨⟨0, 0⟩, ⟨100, 100⟩⟩⟩ (d :: rest) =
        extractLoop eW3 ⟨⟨⟨0, 0⟩, ⟨100, 100⟩⟩⟩ rest) ∧
    ∀ i ∈ [(⟨⟨⟨100, 100⟩, ⟨0, 0⟩⟩⟩ : Image)],
      ∃ d ∈ Above [⟨⟨⟨0, 0⟩, ⟨50, 50⟩⟩, 1, 0⟩] (mkRat 3 5),
        (45 ≤ d.Box.Dx ∧ 45 ≤ d.Box.Dy) ∧
        ∃ lms, eW3.Landmark (cropFrom d.Box) = .ok lms ∧
          i = lms.Center (cropFrom d.Box) ⟨⟨⟨0, 0⟩, ⟨100, 100⟩⟩⟩ :=
  ⟨⟨rfl, rfl⟩,
    extract_skips_small_boxes eW3 ⟨⟨⟨0, 0⟩, ⟨100, 100⟩⟩⟩ [⟨⟨⟨0, 0⟩, ⟨50, 50⟩⟩, 1, 0⟩]
      [⟨⟨⟨100, 100⟩, ⟨0, 0⟩⟩⟩] [[]] rfl rfl⟩


/-! ## Claim C7 -/

/-- Claim C7: when no detection survives the stage threshold,
Extractor.Extract returns empty result lists with no error, while
Extractor.ExtractLandmarks fails with the noFaceDetected error. -/
theorem extract_empty_vs_noface (e : Extractor) (img : Image) (ds : List Detection)
    (h1 : e.Detector img = .ok ds)
    (h2 : Above ds (mkRat 3 5) = [])
    (h3 : Above ds (mkRat 2 5) = []) :
    e.Extract img = .ok ([], []) ∧
    e.ExtractLandmarks img = .error .noFaceDetected := by
  constructor
  · simp only [Extractor.Extract, h1]
    rw [h2]
    rfl
  · simp only [Extractor.ExtractLandmarks, h1]
    rw [h3]
    rfl

/-- Witness for extract_empty_vs_noface: a single detection scoring 0.2
survives neither the 0.6 nor the 0.4 threshold. -/
theorem extract_empty_vs_noface_witness :
    (eC7.Detector ⟨⟨⟨0, 0⟩, ⟨100, 100⟩⟩⟩ = .ok [⟨⟨⟨0, 0⟩, ⟨50, 50⟩⟩, mkRat 1 5, 0⟩] ∧
      Above [⟨⟨⟨0, 0⟩, ⟨50, 50⟩⟩, mkRat 1 5, 0⟩] (mkRat 3 5) = [] ∧
      Above [⟨⟨⟨0, 0⟩, ⟨50, 50⟩⟩, mkRat 1 5, 0⟩] (mkRat 2 5) = []) ∧
    eC7.Extract ⟨⟨⟨0, 0⟩, ⟨100, 100⟩⟩⟩ = .ok ([], []) ∧
    eC7.ExtractLandmarks ⟨⟨⟨0, 0⟩, ⟨100, 100⟩⟩⟩ = .error .noFaceDetected :=
  ⟨⟨rfl, by decide, by decide⟩,
    extract_empty_vs_noface eC7 ⟨⟨⟨0, 0⟩, ⟨100, 100⟩⟩⟩ _ rfl (by decide) (by decide)⟩

/-! ## Claim C8 -/

theorem Above_eq_filter (ds : List Detection) (t : ℚ) :
    Above ds t = ds.filter (fun d => decide (t ≤ d.Score)) := by
  induction ds with
  | nil => rfl
  | cons d rest ih =>
    rw [Above, List.filter_cons]
    by_cases h : d.Score < t
    · rw [if_pos h, ih]
      simp [not_le.mpr h]
    · rw [if_neg h, ih]
      simp [not_lt.mp h]

theorem extractLoop_all_ok (e : Extractor) (img : Image)
    (lm : Image → Landmarks) (dc : Image → Descriptors)
    (hL : e.Landmark = fun i => .ok (lm i))
    (hD : e.Descriptor = fun i => .ok (dc i)) :
    ∀ l : List Detection,
      extractLoop e img l = .ok
        ((l.filter (fun d => decide (45 ≤ d.Box.Dx ∧ 45 ≤ d.Box.Dy))).map
            (fun d => (lm (cropFrom d.Box)).Center (cropFrom d.Box) img),
         (l.filter (fun d => decide (45 ≤ d.Box.Dx ∧ 45 ≤ d.Box.Dy))).map
            (fun d => dc ((lm (cropFrom d.Box)).Center (cropFrom d.Box) img))) := by
  intro l
  induction l with
  | nil => rfl
  | cons d rest ih =>
    by_cases hsize : d.Box.Dx < 45 ∨ d.Box.Dy < 45
    · rw [extractLoop, if_pos hsize, ih, List.filter_cons]
      have hneg : ¬ (45 ≤ d.Box.Dx ∧ 45 ≤ d.Box.Dy) := by omega
      simp [hneg]
    · have hbig : 45 ≤ d.Box.Dx ∧ 45 ≤ d.Box.Dy := by omega
      rw [extractLoop, if_neg hsize, hL, hD]
      simp only []
      rw [ih, List.filter_cons]
      simp [hbig]

theorem extractLandmarksLoop_all_ok (e : Extractor)
    (lm : Image → Landmarks)
    (hL : e.Landmark = fun i => .ok (lm i)) :
    ∀ l : List Detection,
      extractLandmarksLoop e l = .ok
        ((l.filter (fun d => decide (45 ≤ d.Box.Dx ∧ 45 ≤ d.Box.Dy))).map
            (fun d => (lm (cropFrom d.Box)).PointsOnImage (cropFrom d.Box)),
         (l.filter (fun d => decide (45 ≤ d.Box.Dx ∧ 45 ≤ d.Box.Dy))).map
            (fun d => cropFrom d.Box)) := by
  intro l
  induction l with
  | nil => rfl
  | cons d rest ih =>
    by_cases hsize : d.Box.Dx < 45 ∨ d.Box.Dy < 45
    · rw [extractLandmarksLoop, if_pos hsize, ih, List.filter_cons]
      have hneg : ¬ (45 ≤ d.Box.Dx ∧ 45 ≤ d.Box.Dy) := by omega
      simp [hneg]
    · have hbig : 45 ≤ d.Box.Dx ∧ 45 ≤ d.Box.Dy := by omega
      rw [extractLandmarksLoop, if_neg hsize, hL]
      simp only []
      rw [ih, List.filter_cons]
      simp [hbig]

/-- Claim C8: filtering keeps exactly the detections with score at least the
stage threshold (0.6 for Extract, 0.4 for ExtractLandmarks), detections with
a box under 45 px in either dimension are dropped before landmark or
descriptor work, and when every stage succeeds the results are the filtered
detections mapped in the Detector's iteration order (not sorted by score). -/
theorem extract_filters_and_orders (e : Extractor) (img : Image) (ds : List Detection)
    (lm : Image → Landmarks) (dc : Image → Descriptors)
    (h1 : e.Detector img = .ok ds)
    (hL : e.Landmark = fun i => .ok (lm i))
    (hD : e.Descriptor = fun i => .ok (dc i)) :
    Above ds (mkRat 3 5) = ds.filter (fun d => decide (mkRat 3 5 ≤ d.Score)) ∧
    e.Extract img = .ok
      (((Above ds (mkRat 3 5)).filter (fun d => decide (45 ≤ d.Box.Dx ∧ 45 ≤ d.Box.Dy))).map
          (fun d => (lm (cropFrom d.Box)).Center (cropFrom d.Box) img),
       ((Above ds (mkRat 3 5)).filter (fun d => decide (45 ≤ d.Box.Dx ∧ 45 ≤ d.Box.Dy))).map
          (fun d => dc ((lm (cropFrom d.Box)).Center (cropFrom d.Box) img))) ∧
    (Above ds (mkRat 2 5) ≠ [] →
      e.ExtractLandmarks img = .ok
        (((Above ds (mkRat 2 5)).filter
              (fun d => decide (45 ≤ d.Box.Dx ∧ 45 ≤ d.Box.Dy))).map
            (fun d => (lm (cropFrom d.Box)).PointsOnImage (cropFrom d.Box)),
         ((Above ds (mkRat 2 5)).filter
              (fun d => decide (45 ≤ d.Box.Dx ∧ 45 ≤ d.Box.Dy))).map
            (fun d => cropFrom d.Box))) := by
  refine ⟨Above_eq_filter ds (mkRat 3 5), ?_, ?_⟩
  · simp only [Extractor.Extract, h1]
    exact extractLoop_all_ok e img lm dc hL hD _
  · intro hne
    simp only [Extractor.ExtractLandmarks, h1]
    rw [if_neg (by simpa using hne)]
    exact extractLandmarksLoop_all_ok e lm hL _

/-- Witness for extract_filters_and_orders (projected to its first
conjunct). -/
theorem extract_filters_and_orders_witness :
    (eW3.Detector ⟨⟨⟨0, 0⟩, ⟨100, 100⟩⟩⟩ = .ok [⟨⟨⟨0, 0⟩, ⟨50, 50⟩⟩, 1, 0⟩] ∧
      eW3.Landmark = (fun i => .ok ((fun _ => Landmarks.mk []) i)) ∧
      eW3.Descriptor = (fun i => .ok ((fun _ => ([] : Descriptors)) i))) ∧
    Above [⟨⟨⟨0, 0⟩, ⟨50, 50⟩⟩, 1, 0⟩] (mkRat 3 5) =
      [⟨⟨⟨0, 0⟩, ⟨50, 50⟩⟩, 1, 0⟩].filter (fun d => decide (mkRat 3 5 ≤ d.Score)) :=
  ⟨⟨rfl, rfl, rfl⟩,
    (extract_filters_and_orders eW3 ⟨⟨⟨0, 0⟩, ⟨100, 100⟩⟩⟩ [⟨⟨⟨0, 0⟩, ⟨50, 50⟩⟩, 1, 0⟩]
      (fun _ => Landmarks.mk []) (fun _ => ([] : Descriptors)) rfl rfl rfl).1⟩


/-! ## Claim C9 -/

theorem coordPairs_length : ∀ cs : List ℚ, (coordPairs cs).length = cs.length / 2
  | [] => rfl
  | [_] => by simp [coordPairs]
  | _ :: _ :: rest => by
    rw [coordPairs]
    simp only [List.length_cons]
    rw [coordPairs_length rest]
    omega

theorem coordPairs_getElem :
    ∀ (cs : List ℚ) (i : Nat) (x y : ℚ),
      cs[2 * i]? = some x → cs[2 * i + 1]? = some y →
      (coordPairs cs)[i]? = some (x, y)
  | [], i, x, y => by simp
  | [a], i, x, y => by
    intro _ h2
    rw [List.getElem?_eq_none (by simp)] at h2
    cases h2
  | a :: b :: rest, 0, x, y => by
    intro h1 h2
    simp at h1 h2
    subst h1
    subst h2
    simp [coordPairs]
  | a :: b :: rest, i + 1, x, y => by
    intro h1 h2
    rw [coordPairs]
    have e1 : 2 * (i + 1) = (2 * i + 1) + 1 := by omega
    have e2 : 2 * (i + 1) + 1 = (2 * i + 1 + 1) + 1 := by omega
    rw [e1] at h1
    rw [e2] at h2
    simp only [List.getElem?_cons_succ] at h1 h2
    simp only [List.getElem?_cons_succ]
    exact coordPairs_getElem rest i x y h1 h2

/-- Claim C9: Landmarks.PointsOnImage returns exactly floor(len(Coords)/2)
points for any coordinate list (a trailing unpaired coordinate is dropped;
the Lean function is total, so no length panics), and the i-th point is the
image's Min corner offset by the truncated products int(w*x), int(h*y) of
the i-th coordinate pair. -/
theorem pointsOnImage_spec (l : Landmarks) (img : Image) (i : Nat) (x y : ℚ)
    (h1 : l.Coords[2 * i]? = some x) (h2 : l.Coords[2 * i + 1]? = some y) :
    (l.PointsOnImage img).length = l.Coords.length / 2 ∧
    (l.PointsOnImage img)[i]? = some
      ⟨img.Bounds.Min.X + intTrunc ((img.Bounds.Dx : ℚ) * x),
       img.Bounds.Min.Y + intTrunc ((img.Bounds.Dy : ℚ) * y)⟩ := by
  constructor
  · simp [Landmarks.PointsOnImage, coordPairs_length]
  · rw [Landmarks.PointsOnImage]
    simp only [List.getElem?_map, coordPairs_getElem l.Coords i x y h1 h2]
    rfl

/-- Witness for pointsOnImage_spec on an odd-length coordinate list. -/
theorem pointsOnImage_spec_witness :
    ((Landmarks.mk [mkRat 1 2, mkRat 1 3, mkRat 1 4]).Coords[2 * 0]? = some (mkRat 1 2) ∧
      (Landmarks.mk [mkRat 1 2, mkRat 1 3, mkRat 1 4]).Coords[2 * 0 + 1]? =
        some (mkRat 1 3)) ∧
    ((Landmarks.mk [mkRat 1 2, mkRat 1 3, mkRat 1 4]).PointsOnImage
        ⟨⟨⟨0, 0⟩, ⟨100, 100⟩⟩⟩).length =
      (Landmarks.mk [mkRat 1 2, mkRat 1 3, mkRat 1 4]).Coords.length / 2 ∧
    ((Landmarks.mk [mkRat 1 2, mkRat 1 3, mkRat 1 4]).PointsOnImage
        ⟨⟨⟨0, 0⟩, ⟨100, 100⟩⟩⟩)[0]? = some
      ⟨(⟨⟨⟨0, 0⟩, ⟨100, 100⟩⟩⟩ : Image).Bounds.Min.X +
          intTrunc (((⟨⟨⟨0, 0⟩, ⟨100, 100⟩⟩⟩ : Image).Bounds.Dx : ℚ) * mkRat 1 2),
        (⟨⟨⟨0, 0⟩, ⟨100, 100⟩⟩⟩ : Image).Bounds.Min.Y +
          intTrunc (((⟨⟨⟨0, 0⟩, ⟨100, 100⟩⟩⟩ : Image).Bounds.Dy : ℚ) * mkRat 1 3)⟩ :=
  ⟨⟨rfl, rfl⟩,
    pointsOnImage_spec (Landmarks.mk [mkRat 1 2, mkRat 1 3, mkRat 1 4])
      ⟨⟨⟨0, 0⟩, ⟨100, 100⟩⟩⟩ 0 (mkRat 1 2) (mkRat 1 3) rfl rfl⟩

/-! ## Claim C4 -/

/-- Claim C4: for the content-addressed cache, a hit returns the stored
result with zero invocations of the computation; a miss invokes it once and,
on success, persists the result under the key's name before returning it
(the persisted entry is immediately readable); on failure nothing is
persisted and the error propagates; and two successive calls with identical
key material invoke the computation at most once in total — exactly once
when the cache starts without the key — and return identical results. -/
theorem localCache_inception_spec (l : LocalCache) (st : CacheState) (file : String)
    (compute : Except String (List String)) (r : List String)
    (hok : compute = .ok r) :
    (∀ preds, readCache st (cacheName l.CacheDir file) = some preds →
      l.Inception st file compute = (.ok preds, st, 0)) ∧
    (readCache st (cacheName l.CacheDir file) = none →
      l.Inception st file compute =
        (.ok r, saveCache st (cacheName l.CacheDir file) r, 1) ∧
      readCache (saveCache st (cacheName l.CacheDir file) r)
        (cacheName l.CacheDir file) = some r) ∧
    (∀ (cf : Except String (List String)) (e : String), cf = .error e →
      readCache st (cacheName l.CacheDir file) = none →
      l.Inception st file cf = (.error e, st, 1)) ∧
    ((l.Inception st file compute).1 =
        (l.Inception (l.Inception st file compute).2.1 file compute).1 ∧
      (l.Inception st file compute).2.2 +
        (l.Inception (l.Inception st file compute).2.1 file compute).2.2 ≤ 1 ∧
      (readCache st (cacheName l.CacheDir file) = none →
        (l.Inception st file compute).2.2 +
          (l.Inception (l.Inception st file compute).2.1 file compute).2.2 = 1)) := by
  subst hok
  refine ⟨?_, ?_, ?_, ?_⟩
  · intro preds hhit
    simp [LocalCache.Inception, hhit]
  · intro hmiss
    refine ⟨by simp [LocalCache.Inception, hmiss], ?_⟩
    simp [readCache, saveCache]
  · intro cf e hcf hmiss
    subst hcf
    simp [LocalCache.Inception, hmiss]
  · cases hread : readCache st (cacheName l.CacheDir file) with
    | some preds =>
      refine ⟨?_, ?_, ?_⟩
      · simp [LocalCache.Inception, hread]
      · simp [LocalCache.Inception, hread]
      · intro hmiss
        simp [hread] at hmiss
    | none =>
      have hsave : readCache (saveCache st (cacheName l.CacheDir file) r)
          (cacheName l.CacheDir file) = some r := by
        simp [readCache, saveCache]
      refine ⟨?_, ?_, ?_⟩
      · simp [LocalCache.Inception, hread, hsave]
      · simp [LocalCache.Inception, hread, hsave]
      · intro _
        simp [LocalCache.Inception, hread, hsave]

/-- Witness for localCache_inception_spec: a fresh cache, one file name,
a successful computation (projected to the miss-and-persist conjunct). -/
theorem localCache_inception_spec_witness :
    ((.ok ["cat"] : Except String (List String)) = .ok ["cat"] ∧
      readCache ([] : CacheState) (cacheName "dir" "img.jpg") = none) ∧
    (LocalCache.mk "dir").Inception [] "img.jpg" (.ok ["cat"]) =
      (.ok ["cat"], saveCache [] (cacheName "dir" "img.jpg") ["cat"], 1) ∧
    readCache (saveCache [] (cacheName "dir" "img.jpg") ["cat"])
      (cacheName "dir" "img.jpg") = some ["cat"] :=
  ⟨⟨rfl, rfl⟩,
    ((localCache_inception_spec (LocalCache.mk "dir") [] "img.jpg"
      (.ok ["cat"]) ["cat"] rfl).2.1 rfl)⟩

end GildasAI
